import Mathlib

/-!
Verification development for the hearbud audio recorder
(`src/audio_recorder.py`).  The numeric pipeline (gain, resampling
plumbing, channel matching, mixing, limiting, int16 conversion) and the
controller's command handling are embedded shallowly: float32 sample
values are modelled as exact rationals, numpy arrays as lists, and the
external `scipy.signal.resample_poly` kernel is a parameter of the
embedding (it is only ever needed on the branch where it is not called).
-/

namespace Hearbud

/-- Global config constants from the top of `audio_recorder.py`. -/
def TARGET_SR : ℕ := 48000

/-- Soft limiter ceiling: trims only above this peak, never boosts. -/
def TARGET_PEAK : ℚ := 98 / 100

/-- Slider range minimum for both gains. -/
def GAIN_MIN : ℚ := 0

/-- Slider range maximum for both gains. -/
def GAIN_MAX : ℚ := 3

/-- Default gain. -/
def GAIN_DEFAULT : ℚ := 1

/-- Sample blocks as produced by numpy in the source: either a 1-D array
(mono shape) or a 2-D array of frames × channels.  Sample values are the
float32 values of the source, modelled as exact rationals. -/
inductive NDArray where
  | d1 : List ℚ → NDArray
  | d2 : List (List ℚ) → NDArray
deriving DecidableEq, Repr

/-- Flat view of all samples of an array (row-major, as numpy stores them). -/
def NDArray.samples : NDArray → List ℚ
  | .d1 xs => xs
  | .d2 rows => rows.flatten

/-- Element count, `x.size` in numpy. -/
def NDArray.size : NDArray → ℕ
  | .d1 xs => xs.length
  | .d2 rows => (rows.map List.length).sum

/-- Elementwise scalar multiplication, `x * c` / `x *= c` in the source. -/
def scaleArr (c : ℚ) : NDArray → NDArray
  | .d1 xs => .d1 (xs.map fun v => c * v)
  | .d2 rows => .d2 (rows.map fun r => r.map fun v => c * v)

/-- Source helper `as_2d`: a 1-D array becomes a single-column 2-D array
(`reshape(-1, 1)`), a 2-D array is returned unchanged. -/
def as_2d : NDArray → List (List ℚ)
  | .d1 xs => xs.map fun v => [v]
  | .d2 rows => rows

/-- Column count `rows.shape[1]` of a (rectangular, nonempty) 2-D array. -/
def ncols (rows : List (List ℚ)) : ℕ := (rows.headD []).length

/-- Rectangularity: every row has the common column count.  numpy arrays
are rectangular by construction; list embeddings need it as a hypothesis. -/
def isRect (rows : List (List ℚ)) : Prop := ∀ r ∈ rows, r.length = ncols rows

/-- Source helper `match_channels`: both arrays are column-truncated to the
smaller of the two channel counts (`a2[:, :c]`, `b2[:, :c]` with
`c = min(a2.shape[1], b2.shape[1])`). -/
def match_channels (a b : NDArray) : List (List ℚ) × List (List ℚ) :=
  let a2 := as_2d a
  let b2 := as_2d b
  let c := min (ncols a2) (ncols b2)
  (a2.map fun r => r.take c, b2.map fun r => r.take c)

/-- Peak absolute amplitude `float(np.max(np.abs(x))) if x.size else 0.0`.
For a nonempty array the fold with base 0 agrees with `np.max` because
every `|v|` is nonnegative; for an empty array both give 0. -/
def peakAbs (x : NDArray) : ℚ := (x.samples.map fun v => |v|).foldr max 0

/-- Soft limiter `_limit_down`: scales the whole block by
`TARGET_PEAK / peak` when `peak > TARGET_PEAK and peak > 1e-9`, otherwise
returns the block unmodified. -/
def limit_down (x : NDArray) : NDArray :=
  let peak := peakAbs x
  if TARGET_PEAK < peak ∧ (1 / 1000000000 : ℚ) < peak then
    scaleArr (TARGET_PEAK / peak) x
  else x

/-- Source `resample_to`, parameterised by the external
`scipy.signal.resample_poly` kernel `rp col up down` (applied per channel).
When `src_sr == dst_sr` (or the array is empty) the input is returned
as-is: `astype(np.float32, copy=False)` is the identity on the float32
arrays every call site passes. -/
def getCol (rows : List (List ℚ)) (c : ℕ) : List ℚ := rows.map fun r => r.getD c 0

/-- Model of `np.column_stack` on equal-length columns. -/
def colStack (cols : List (List ℚ)) : List (List ℚ) :=
  match cols with
  | [] => []
  | c0 :: _ => (List.range c0.length).map fun i => cols.map fun col => col.getD i 0

def resample_to (rp : List ℚ → ℕ → ℕ → List ℚ) (x : NDArray) (src_sr dst_sr : ℕ) :
    NDArray :=
  if src_sr = dst_sr ∨ x.size = 0 then x
  else
    let x2d := as_2d x
    let g := Nat.gcd src_sr dst_sr
    let up := dst_sr / g
    let down := src_sr / g
    let y := colStack ((List.range (ncols x2d)).map fun c => rp (getCol x2d c) up down)
    match x with
    | .d2 _ => NDArray.d2 y
    | .d1 _ => NDArray.d1 (getCol y 0)

/-- Rows of `ch` entries, modelling `np.reshape(-1, channels)` on the
decoded int16 sample list (generic in the element type). -/
def chunkRows {α : Type} (n : ℕ) (l : List α) : List (List α) :=
  match n, l with
  | _, [] => []
  | 0, x :: xs => [x :: xs]
  | n + 1, x :: xs => ((x :: xs).take (n + 1)) :: chunkRows (n + 1) ((x :: xs).drop (n + 1))
termination_by l.length
decreasing_by
  simp only [List.drop_succ_cons, List.length_drop, List.length_cons]
  omega

/-- Source `float_from_int16_bytes`: the decoded int16 samples (the
byte-pair decoding of `np.frombuffer` is taken as given, starting from the
integer sample list), reshaped to `channels` columns when `channels > 1`,
then converted to float by dividing by 32767. -/
def float_from_int16_bytes (arr : List ℤ) (channels : ℕ) : NDArray :=
  if 1 < channels then
    NDArray.d2 ((chunkRows channels arr).map fun r => r.map fun v : ℤ => (v : ℚ) / 32767)
  else
    NDArray.d1 (arr.map fun v : ℤ => (v : ℚ) / 32767)

/-! Basic lemmas about peaks and scaling. -/

lemma foldr_max_nonneg (l : List ℚ) : 0 ≤ l.foldr max 0 := by
  induction l with
  | nil => simp
  | cons a t ih => exact le_trans ih (le_max_right a _)

lemma foldr_max_mul (c : ℚ) (hc : 0 ≤ c) (l : List ℚ) :
    (l.map fun v => c * v).foldr max 0 = c * l.foldr max 0 := by
  induction l with
  | nil => simp
  | cons a t ih => simp [ih, mul_max_of_nonneg _ _ hc]

lemma foldr_max_le (l : List ℚ) (M : ℚ) (hM : 0 ≤ M) (h : ∀ v ∈ l, v ≤ M) :
    l.foldr max 0 ≤ M := by
  induction l with
  | nil => simpa using hM
  | cons a t ih =>
      simp only [List.foldr_cons]
      exact max_le (h a (by simp)) (ih fun v hv => h v (by simp [hv]))

lemma samples_scaleArr (c : ℚ) (x : NDArray) :
    (scaleArr c x).samples = x.samples.map fun v => c * v := by
  cases x with
  | d1 xs => rfl
  | d2 rows =>
      simp only [scaleArr, NDArray.samples]
      rw [List.map_flatten]

lemma peakAbs_nonneg (x : NDArray) : 0 ≤ peakAbs x := foldr_max_nonneg _

lemma peakAbs_scale (c : ℚ) (hc : 0 ≤ c) (x : NDArray) :
    peakAbs (scaleArr c x) = c * peakAbs x := by
  unfold peakAbs
  rw [samples_scaleArr, List.map_map]
  have hcomp : ((fun v => |v|) ∘ fun v => c * v) = (fun v => c * v) ∘ fun v => |v| := by
    funext v
    simp [Function.comp, abs_mul, abs_of_nonneg hc]
  rw [hcomp, ← List.map_map, foldr_max_mul c hc]

lemma peakAbs_le (x : NDArray) (M : ℚ) (hM : 0 ≤ M)
    (h : ∀ v ∈ x.samples, |v| ≤ M) : peakAbs x ≤ M := by
  unfold peakAbs
  exact foldr_max_le _ M hM (by
    intro v hv
    obtain ⟨w, hw, rfl⟩ := List.mem_map.mp hv
    exact h w hw)

lemma scaleArr_one (x : NDArray) : scaleArr 1 x = x := by
  cases x <;> simp [scaleArr]

/-- C2: the limiter returns blocks with peak at most the 0.98 ceiling
unmodified; a block whose peak exceeds the ceiling is scaled by
`ceiling / peak`, bringing its peak to exactly the ceiling; in every case
the output is the input times a factor at most 1 (never amplified). -/
theorem limit_down_spec (x : NDArray) :
    (peakAbs x ≤ TARGET_PEAK → limit_down x = x) ∧
    (TARGET_PEAK < peakAbs x → peakAbs (limit_down x) = TARGET_PEAK) ∧
    (∃ c : ℚ, c ≤ 1 ∧ limit_down x = scaleArr c x) := by
  refine ⟨?_, ?_, ?_⟩
  · intro h
    unfold limit_down
    rw [if_neg]
    intro hcontra
    exact absurd h (not_le.mpr hcontra.1)
  · intro h
    have hpos : (0 : ℚ) < peakAbs x := lt_trans (by norm_num [TARGET_PEAK]) h
    have heps : (1 / 1000000000 : ℚ) < peakAbs x :=
      lt_trans (by norm_num [TARGET_PEAK]) h
    unfold limit_down
    rw [if_pos ⟨h, heps⟩]
    rw [peakAbs_scale _ (div_nonneg (by norm_num [TARGET_PEAK]) (le_of_lt hpos))]
    field_simp
  · by_cases hcond : TARGET_PEAK < peakAbs x ∧ (1 / 1000000000 : ℚ) < peakAbs x
    · refine ⟨TARGET_PEAK / peakAbs x, ?_, ?_⟩
      · have hpos : (0 : ℚ) < peakAbs x := lt_trans (by norm_num [TARGET_PEAK]) hcond.1
        exact le_of_lt ((div_lt_one hpos).mpr hcond.1)
      · unfold limit_down
        rw [if_pos hcond]
    · exact ⟨1, le_refl 1, by unfold limit_down; rw [if_neg hcond, scaleArr_one]⟩

/-- Witness for `limit_down_spec` at a concrete in-range block. -/
theorem limit_down_spec_witness :
    peakAbs (NDArray.d1 [1 / 2]) ≤ TARGET_PEAK ∧
    limit_down (NDArray.d1 [1 / 2]) = NDArray.d1 [1 / 2] :=
  ⟨by norm_num [peakAbs, NDArray.samples, TARGET_PEAK, abs_of_nonneg],
   (limit_down_spec (NDArray.d1 [1 / 2])).1
     (by norm_num [peakAbs, NDArray.samples, TARGET_PEAK, abs_of_nonneg])⟩

/-- C8: resampling with equal source and destination rates is the identity
transform on the block, for every resampling kernel. -/
theorem resample_to_identity (rp : List ℚ → ℕ → ℕ → List ℚ) (x : NDArray) (sr : ℕ) :
    resample_to rp x sr sr = x := by
  simp [resample_to]

/-! Capture readers.  `_read_mic` and `_read_loopback` read one block per
loop iteration, convert it to float, apply the live gain (loopback only
when not raw dumping), push the gained block on the stream's queue, and at
most every 0.1 s emit a `LEVEL` event with the block's peak.  One loop
iteration is embedded as a function of the block; the 10 Hz throttle is
the `emit_level` flag. -/

lemma flatten_chunkRows {α : Type} (n : ℕ) (l : List α) :
    (chunkRows n l).flatten = l := by
  induction n, l using chunkRows.induct with
  | case1 n => simp [chunkRows]
  | case2 x xs => simp [chunkRows]
  | case3 n x xs ih =>
      rw [chunkRows]
      simp only [List.flatten_cons, ih, List.take_append_drop]

lemma samples_float_from_int16 (arr : List ℤ) (ch : ℕ) :
    (float_from_int16_bytes arr ch).samples = arr.map fun v : ℤ => (v : ℚ) / 32767 := by
  unfold float_from_int16_bytes
  split
  · show ((chunkRows ch arr).map (List.map fun v : ℤ => (v : ℚ) / 32767)).flatten = _
    rw [← List.map_flatten, flatten_chunkRows]
  · rfl

/-- One result of a `_read_mic` loop iteration. -/
structure MicReadResult where
  queued : Option NDArray
  level : Option (String × ℚ)
deriving DecidableEq

/-- One `_read_mic` iteration on the decoded int16 block `data` with `ch`
channels: convert to float, multiply by the mic gain, queue the gained
block, and (when the throttle allows) emit the gained peak as a `mic`
level. -/
def read_mic_block (mic_gain : ℚ) (data : List ℤ) (ch : ℕ) (emit_level : Bool) :
    MicReadResult :=
  let x := float_from_int16_bytes data ch
  let x := scaleArr mic_gain x
  { queued := some x
    level := if emit_level then some ("mic", peakAbs x) else none }

/-- One result of a `_read_loopback` loop iteration. -/
structure LoopReadResult where
  raw_written : List ℤ
  queued : Option NDArray
  level : Option (String × ℚ)
deriving DecidableEq

/-- One `_read_loopback` iteration: in raw-dump mode the original int16
block is appended to the raw WAV file and nothing is queued; otherwise the
float block is multiplied by the loopback gain and queued.  The `sys`
level peak is taken from the block at that point (gained in normal mode,
ungained in raw mode). -/
def read_loopback_block (raw_dump : Bool) (loop_gain : ℚ) (data : List ℤ) (ch : ℕ)
    (emit_level : Bool) : LoopReadResult :=
  let x := float_from_int16_bytes data ch
  if raw_dump then
    { raw_written := data
      queued := none
      level := if emit_level then some ("sys", peakAbs x) else none }
  else
    let x := scaleArr loop_gain x
    { raw_written := []
      queued := some x
      level := if emit_level then some ("sys", peakAbs x) else none }

/-- C9: the mic capture task applies the gain at capture time, immediately
after int16→float conversion (the queued block is the converted block times
the gain), and for any gain in the slider range the gained block's peak is
exactly the gain times the ungained peak. -/
theorem gain_peak_linear (g : ℚ) (hg0 : 0 ≤ g) (_hg3 : g ≤ GAIN_MAX)
    (data : List ℤ) (ch : ℕ) (e : Bool) :
    (read_mic_block g data ch e).queued
        = some (scaleArr g (float_from_int16_bytes data ch)) ∧
    peakAbs (scaleArr g (float_from_int16_bytes data ch))
        = g * peakAbs (float_from_int16_bytes data ch) :=
  ⟨rfl, peakAbs_scale g hg0 _⟩

/-- Witness for `gain_peak_linear` at gain 2 on a concrete block. -/
theorem gain_peak_linear_witness :
    peakAbs (scaleArr 2 (float_from_int16_bytes [100, -200] 1))
      = 2 * peakAbs (float_from_int16_bytes [100, -200] 1) :=
  (gain_peak_linear 2 (by norm_num) (by norm_num [GAIN_MAX]) [100, -200] 1 true).2

/-- C6 counterexample: a mic level event can carry a peak above 1.  With
the in-range gain 3 and a legal int16 full-scale block, the emitted peak
is 3. -/
theorem level_peak_cex :
    (read_mic_block 3 [32767] 1 true).level = some ("mic", 3) ∧ ¬ ((3 : ℚ) ≤ 1) := by
  constructor
  · norm_num [read_mic_block, float_from_int16_bytes, chunkRows, scaleArr, peakAbs,
      NDArray.samples, abs_of_nonneg]
  · norm_num

/-- C6 amended: level peaks are nonnegative, and bounded by
`gain * 32768 / 32767` (hence by 1 only when the gain is small enough):
the bound for the gained mic and loopback paths, and `32768 / 32767` for
the ungained raw-dump loopback path, given int16-legal samples. -/
theorem level_peak_bounds (g : ℚ) (hg : 0 ≤ g) (data : List ℤ)
    (hdata : ∀ v ∈ data, -32768 ≤ v ∧ v ≤ 32767) (ch : ℕ) :
    (∀ p, (read_mic_block g data ch true).level = some ("mic", p) →
        0 ≤ p ∧ p ≤ g * (32768 / 32767)) ∧
    (∀ p, (read_loopback_block false g data ch true).level = some ("sys", p) →
        0 ≤ p ∧ p ≤ g * (32768 / 32767)) ∧
    (∀ p, (read_loopback_block true g data ch true).level = some ("sys", p) →
        0 ≤ p ∧ p ≤ 32768 / 32767) := by
  have hbase : peakAbs (float_from_int16_bytes data ch) ≤ 32768 / 32767 := by
    apply peakAbs_le _ _ (by norm_num)
    intro v hv
    rw [samples_float_from_int16] at hv
    obtain ⟨w, hw, rfl⟩ := List.mem_map.mp hv
    obtain ⟨h1, h2⟩ := hdata w hw
    rw [abs_div, abs_of_nonneg (by norm_num : (0:ℚ) ≤ 32767)]
    apply div_le_div_of_nonneg_right ?_ (by norm_num)
    rw [abs_le]
    constructor <;> [exact_mod_cast h1; exact_mod_cast le_trans h2 (by norm_num : (32767 : ℤ) ≤ 32768)]
  have hgained : peakAbs (scaleArr g (float_from_int16_bytes data ch))
      ≤ g * (32768 / 32767) := by
    rw [peakAbs_scale g hg]
    exact mul_le_mul_of_nonneg_left hbase hg
  refine ⟨?_, ?_, ?_⟩
  · intro p hp
    simp only [read_mic_block, if_pos, Option.some.injEq, Prod.mk.injEq, true_and] at hp
    rcases hp with ⟨-, rfl⟩
    exact ⟨peakAbs_nonneg _, hgained⟩
  · intro p hp
    simp only [read_loopback_block, if_neg, Bool.false_eq_true, not_false_iff,
      ite_false, Option.some.injEq, Prod.mk.injEq, true_and, if_true] at hp
    rcases hp with ⟨-, rfl⟩
    exact ⟨peakAbs_nonneg _, hgained⟩
  · intro p hp
    simp only [read_loopback_block, if_true, Option.some.injEq, Prod.mk.injEq,
      true_and] at hp
    rcases hp with ⟨-, rfl⟩
    exact ⟨peakAbs_nonneg _, hbase⟩

/-- Witness for `level_peak_bounds` at gain 1 on a concrete silent block. -/
theorem level_peak_bounds_witness :
    0 ≤ (0 : ℚ) ∧ (0 : ℚ) ≤ 1 * (32768 / 32767) :=
  (level_peak_bounds 1 (by norm_num) [0] (by norm_num) 1).1 0
    (by norm_num [read_mic_block, float_from_int16_bytes, scaleArr, peakAbs,
      NDArray.samples])

/-! Stop-time processing, `_process_and_emit`. -/

/-- Int16 output arrays (the payload handed to `SAVE_FILE`). -/
inductive NDArrayI where
  | d1 : List ℤ → NDArrayI
  | d2 : List (List ℤ) → NDArrayI
deriving DecidableEq, Repr

/-- Frame count of a saved array. -/
def NDArrayI.nrows : NDArrayI → ℕ
  | .d1 xs => xs.length
  | .d2 rows => rows.length

/-- Truncation toward zero, as `astype(np.int16)` rounds. -/
def truncQ (q : ℚ) : ℤ := if 0 ≤ q then ⌊q⌋ else -⌊-q⌋

/-- Per-sample `to_int16` conversion: clip into `[-1, 1]`, scale by 32767,
truncate. -/
def to_int16_val (v : ℚ) : ℤ := truncQ (min 1 (max (-1) v) * 32767)

/-- Source helper `to_int16` applied shape-preservingly. -/
def to_int16 : NDArray → NDArrayI
  | .d1 xs => .d1 (xs.map to_int16_val)
  | .d2 rows => .d2 (rows.map fun r => r.map to_int16_val)

/-- Status-queue messages `(msgtype, data)` put by the controller.  The
numeric interpolation inside `INFO`/`STATUS` texts is not modelled; the
constant prefix identifies the message. -/
inductive Msg where
  | STATUS : String → Msg
  | INFO : String → Msg
  | ERROR : String → Msg
  | LEVEL : String → ℚ → Msg
  | SAVE_FILE : NDArrayI → Msg
deriving DecidableEq, Repr

/-- Model of `np.concatenate(frames, axis=0)` on the drained queue
contents: 1-D blocks concatenate to a 1-D array, 2-D blocks stack rows.
Within one session all queued blocks have the same shape kind. -/
def concatBlocks (frames : List NDArray) : NDArray :=
  if frames.all fun f => match f with | .d1 _ => true | .d2 _ => false then
    NDArray.d1 ((frames.map NDArray.samples).flatten)
  else
    NDArray.d2 ((frames.map as_2d).flatten)

/-- Both-streams mixing step of `_process_and_emit` (lines 518-522):
channel-match the resampled blocks, truncate both to the shorter length
`L = min(len(mic2), len(loop2))`, and add sample-wise. -/
def mixBlocks (mic_rs loop_rs : NDArray) : List (List ℚ) :=
  let p := match_channels mic_rs loop_rs
  let L := min p.1.length p.2.length
  List.zipWith (fun r1 r2 => List.zipWith (· + ·) r1 r2) (p.1.take L) (p.2.take L)

/-- Source `_process_and_emit`: drain results `loop_frames` / `mic_frames`
are its inputs; emits the status-queue messages of lines 481-539.
`SAVE_STEMS` is `False` in the source, so the stem-writing block is dead
code and does not appear. -/
def process_and_emit (rp : List ℚ → ℕ → ℕ → List ℚ)
    (loop_frames mic_frames : List NDArray)
    (capture_sr_spk capture_sr_mic : ℕ) : List Msg :=
  if loop_frames = [] ∧ mic_frames = [] then
    [.INFO "No audio captured. Nothing saved.", .STATUS "Ready to record"]
  else if mic_frames = [] then
    let loop_np := concatBlocks loop_frames
    let loop_rs := limit_down (resample_to rp loop_np capture_sr_spk TARGET_SR)
    [.INFO "System-only peak(gained)", .SAVE_FILE (to_int16 loop_rs)]
  else if loop_frames = [] then
    let mic_np := concatBlocks mic_frames
    let mic_rs := limit_down (resample_to rp mic_np capture_sr_mic TARGET_SR)
    [.INFO "Mic-only peak(gained)", .SAVE_FILE (to_int16 mic_rs)]
  else
    let mic_np := concatBlocks mic_frames
    let loop_np := concatBlocks loop_frames
    let mic_rs := resample_to rp mic_np capture_sr_mic TARGET_SR
    let loop_rs := resample_to rp loop_np capture_sr_spk TARGET_SR
    let mixed := limit_down (NDArray.d2 (mixBlocks mic_rs loop_rs))
    [.INFO "Max peaks", .SAVE_FILE (to_int16 mixed), .STATUS "Ready to record"]

/-- Frame count of the first `SAVE_FILE` payload among emitted messages. -/
def savedRows (evs : List Msg) : Option ℕ :=
  evs.findSome? fun m => match m with
    | Msg.SAVE_FILE d => some d.nrows
    | _ => none

/-- C7: stopping with zero captured blocks from every source emits the
"nothing captured" message as `INFO` (never as `ERROR`), produces no
`SAVE_FILE`, and reports the ready state. -/
theorem empty_capture_info (rp : List ℚ → ℕ → ℕ → List ℚ)
    (capture_sr_spk capture_sr_mic : ℕ) :
    Msg.INFO "No audio captured. Nothing saved."
        ∈ process_and_emit rp [] [] capture_sr_spk capture_sr_mic ∧
    Msg.STATUS "Ready to record"
        ∈ process_and_emit rp [] [] capture_sr_spk capture_sr_mic ∧
    (∀ t, Msg.ERROR t ∉ process_and_emit rp [] [] capture_sr_spk capture_sr_mic) ∧
    (∀ d, Msg.SAVE_FILE d ∉ process_and_emit rp [] [] capture_sr_spk capture_sr_mic) := by
  simp [process_and_emit]

/-! Mixing length and channel reconciliation (C1, C5). -/

lemma mem_zipWith {α β γ : Type} {f : α → β → γ} {l1 : List α} {l2 : List β} {c : γ}
    (h : c ∈ List.zipWith f l1 l2) : ∃ a ∈ l1, ∃ b ∈ l2, c = f a b := by
  induction l1 generalizing l2 with
  | nil => simp at h
  | cons x xs ih =>
      cases l2 with
      | nil => simp at h
      | cons y ys =>
          simp only [List.zipWith_cons_cons, List.mem_cons] at h
          rcases h with h | h
          · exact ⟨x, by simp, y, by simp, h⟩
          · obtain ⟨a, ha, b, hb, rfl⟩ := ih h
            exact ⟨a, by simp [ha], b, by simp [hb], rfl⟩

/-- C1 amended: the mixed output's length is the SHORTER of the two
resampled inputs (the longer one is truncated at its tail before
sample-wise addition), not the longer one. -/
theorem mix_length_min (a b : NDArray) :
    (mixBlocks a b).length = min (as_2d a).length (as_2d b).length := by
  unfold mixBlocks match_channels
  simp only [List.length_zipWith, List.length_take, List.length_map]
  omega

/-- C1 counterexample: with two captured mic frames and three loopback
frames (equal rates, so resampling is the identity), the saved mix has 2
frames — the shorter input's length — not the longer length 3 the claim
requires. -/
theorem mix_length_truncates_cex :
    savedRows (process_and_emit (fun xs _ _ => xs)
        [NDArray.d2 [[0], [0], [0]]] [NDArray.d2 [[0], [0]]] TARGET_SR TARGET_SR)
      = some 2 ∧
    (as_2d (concatBlocks [NDArray.d2 [[0], [0], [0]]])).length = 3 ∧
    (2 : ℕ) ≠ max 2 3 := by
  refine ⟨?_, by norm_num [concatBlocks, as_2d, NDArray.samples], by norm_num⟩
  norm_num [savedRows, process_and_emit, concatBlocks, resample_to, mixBlocks,
    match_channels, as_2d, ncols, limit_down, peakAbs, NDArray.samples,
    to_int16, to_int16_val, truncQ, TARGET_PEAK, NDArrayI.nrows, List.findSome?]

/-- C5 counterexample: with a mono mic block and a stereo loopback block
the mixed output has 1 channel — the smaller channel count — not the
loopback stream's 2 channels the claim requires. -/
theorem mix_channels_cex :
    mixBlocks (NDArray.d1 [0, 0]) (NDArray.d2 [[0, 0], [0, 0]]) = [[0], [0]] ∧
    ncols (as_2d (NDArray.d2 [[0, 0], [0, 0]])) = 2 ∧
    ncols [[(0 : ℚ)], [0]] ≠ 2 := by
  refine ⟨?_, by norm_num [ncols, as_2d], by norm_num [ncols]⟩
  norm_num [mixBlocks, match_channels, as_2d, ncols]

/-- C5 amended: the mixed output's channel count is the MINIMUM of the two
input channel counts — the block with more channels is truncated; a block
with fewer channels is never channel-duplicated or zero-extended. -/
theorem mix_channels_min (a b : NDArray)
    (ha : isRect (as_2d a)) (hb : isRect (as_2d b)) :
    (mixBlocks a b).map List.length
      = List.replicate (mixBlocks a b).length
          (min (ncols (as_2d a)) (ncols (as_2d b))) := by
  rw [List.eq_replicate_iff]
  refine ⟨by simp, ?_⟩
  intro n hn
  obtain ⟨r, hr, rfl⟩ := List.mem_map.mp hn
  unfold mixBlocks at hr
  obtain ⟨r1, hr1, r2, hr2, rfl⟩ := mem_zipWith hr
  have hr1' := List.take_subset _ _ hr1
  have hr2' := List.take_subset _ _ hr2
  simp only [match_channels] at hr1' hr2'
  obtain ⟨s1, hs1, rfl⟩ := List.mem_map.mp hr1'
  obtain ⟨s2, hs2, rfl⟩ := List.mem_map.mp hr2'
  have h1 := ha s1 hs1
  have h2 := hb s2 hs2
  simp only [List.length_zipWith, List.length_take]
  omega

/-- Witness for `mix_channels_min` on concrete rectangular blocks. -/
theorem mix_channels_min_witness :
    (mixBlocks (NDArray.d2 [[0, 0]]) (NDArray.d2 [[0]])).map List.length
      = List.replicate (mixBlocks (NDArray.d2 [[0, 0]]) (NDArray.d2 [[0]])).length
          (min (ncols (as_2d (NDArray.d2 [[0, 0]]))) (ncols (as_2d (NDArray.d2 [[0]])))) :=
  mix_channels_min _ _ (by intro r hr; simp [as_2d, ncols] at hr ⊢; simp [hr])
    (by intro r hr; simp [as_2d, ncols] at hr ⊢; simp [hr])

/-! Controller state machine.  `RecordingController`'s mutable fields and
the handlers for `SET_GAINS` (`run`, lines 281-288) and `START`
(`start_recording`, lines 310-387) are embedded as a state-passing
function.  Hardware streams, the enumeration result and file opening are
abstracted to success flags; thread starts are counted. -/

structure CState where
  is_recording : Bool
  include_mic : Bool
  raw_dump : Bool
  mic_gain : ℚ
  loop_gain : ℚ
  /-- `spk_stream` (the loopback capture stream) is open. -/
  spk_open : Bool
  /-- `mic_stream` is open. -/
  mic_open : Bool
  /-- `raw_wave` (the raw-dump WAV file) is open. -/
  raw_open : Bool
  /-- Number of loopback reader threads started so far. -/
  loop_spawns : ℕ
  /-- Number of mic reader threads started so far. -/
  mic_spawns : ℕ
  /-- Messages put on the status queue, oldest first. -/
  events : List Msg
deriving Repr

/-- Append one message to the status queue. -/
def emit (s : CState) (m : Msg) : CState := { s with events := s.events ++ [m] }

/-- Source `_teardown`: closes both streams and the PyAudio handle. -/
def teardown (s : CState) : CState :=
  { s with
    spk_open := false
    mic_open := false }

/-- Gains-in-range invariant the spec asserts for `GainState`. -/
def gains_ok (s : CState) : Prop :=
  GAIN_MIN ≤ s.mic_gain ∧ s.mic_gain ≤ GAIN_MAX ∧
  GAIN_MIN ≤ s.loop_gain ∧ s.loop_gain ≤ GAIN_MAX

/-- Source `SET_GAINS` handler (`run`, lines 281-288): absent arguments
default to the current gains, and both stored gains are clamped with
`max(GAIN_MIN, min(GAIN_MAX, g))`. -/
def set_gains (s : CState) (mg lg : Option ℚ) : CState :=
  let s' : CState := { s with
    mic_gain := max GAIN_MIN (min GAIN_MAX (mg.getD s.mic_gain))
    loop_gain := max GAIN_MIN (min GAIN_MAX (lg.getD s.loop_gain)) }
  emit s' (.STATUS "Recording…")

/-- Source `start_recording` (lines 310-387).  Devices are abstracted to
their presence (`Option Unit`); `loopbacks_exist` stands for the
`list_devices()` enumeration finding any loopback device on the
auto-match path, and `lb_ok`, `mic_ok`, `raw_ok` for the respective
stream-open/`wave.open` calls succeeding.  The source threads the state
through sequential field mutations; here each exit point carries the net
result of the mutations up to it.  Note the validation on line 318 tests
the RAW `include_mic` argument (before raw mode forces it off), the gains
are stored UNCLAMPED (lines 325-326), and the handler never consults
`is_recording`. -/
def start_recording (s : CState)
    (mic_device spk_device loopback_device : Option Unit)
    (include_mic raw_dump : Bool) (mic_gain loop_gain : ℚ)
    (loopbacks_exist lb_ok mic_ok raw_ok : Bool) : CState :=
  if spk_device = none ∧ loopback_device = none then
    emit (emit s (.ERROR "Select an output or a loopback device."))
      (.STATUS "Ready to record")
  else if include_mic = true ∧ mic_device = none then
    emit (emit s (.ERROR "Include microphone is enabled but no mic selected."))
      (.STATUS "Ready to record")
  else
    -- line 323: `include_mic and not raw_dump` — mic forced off in raw mode
    let inc := include_mic && !raw_dump
    -- lines 323-326 applied to `s`
    let withArgs : CState := { s with
      include_mic := inc
      raw_dump := raw_dump
      mic_gain := mic_gain
      loop_gain := loop_gain }
    if !(lb_ok && (loopback_device.isSome || loopbacks_exist)) then
      -- lines 341-345: loopback failure — ERROR, teardown, ready
      emit (teardown (emit withArgs (.ERROR "Loopback error")))
        (.STATUS "Ready to record")
    else if inc && !mic_ok then
      -- lines 350-354: mic failure after the loopback stream opened
      emit (teardown (emit { withArgs with spk_open := true } (.ERROR "Mic error")))
        (.STATUS "Ready to record")
    else if raw_dump && !raw_ok then
      -- lines 368-372: raw WAV open failure after the streams opened
      emit (teardown (emit { withArgs with
          spk_open := true
          mic_open := inc || s.mic_open } (.ERROR "Cannot open raw WAV")))
        (.STATUS "Ready to record")
    else
      -- lines 356-387: success — raw INFO (raw mode), recording status,
      -- loopback reader spawned, mic reader spawned only when `inc`
      { withArgs with
        is_recording := true
        spk_open := true
        mic_open := inc || s.mic_open
        raw_open := raw_dump || s.raw_open
        loop_spawns := s.loop_spawns + 1
        mic_spawns := if inc then s.mic_spawns + 1 else s.mic_spawns
        events := (s.events ++ (if raw_dump then [Msg.INFO "Raw dump"] else []))
          ++ [Msg.STATUS "Recording…"] }

/-- The idle controller as constructed by `__init__` (with the queues,
streams and raw-dump state empty). -/
def idleState : CState :=
  { is_recording := false, include_mic := true, raw_dump := false,
    mic_gain := GAIN_DEFAULT, loop_gain := GAIN_DEFAULT,
    spk_open := false, mic_open := false, raw_open := false,
    loop_spawns := 0, mic_spawns := 0, events := [] }

/-- A controller mid-recording: streams open, one reader thread each. -/
def recordingState : CState :=
  { idleState with
    is_recording := true
    spk_open := true
    mic_open := true
    loop_spawns := 1
    mic_spawns := 1 }

/-- Helper: `start_recording` either fails before line 325 (gains keep
their previous values) or stores its gain arguments — in both cases
verbatim, with no clamping anywhere. -/
lemma start_recording_gains (s : CState)
    (mic_device spk_device loopback_device : Option Unit)
    (im rd : Bool) (mg lg : ℚ) (le lb mk rk : Bool) :
    ((start_recording s mic_device spk_device loopback_device im rd mg lg
        le lb mk rk).mic_gain = s.mic_gain ∧
     (start_recording s mic_device spk_device loopback_device im rd mg lg
        le lb mk rk).loop_gain = s.loop_gain) ∨
    ((start_recording s mic_device spk_device loopback_device im rd mg lg
        le lb mk rk).mic_gain = mg ∧
     (start_recording s mic_device spk_device loopback_device im rd mg lg
        le lb mk rk).loop_gain = lg) := by
  unfold start_recording
  simp only []
  repeat' split
  all_goals first
    | exact Or.inl ⟨rfl, rfl⟩
    | exact Or.inr ⟨rfl, rfl⟩

/-- C3 counterexample: `start_recording` stores its gain arguments without
clamping, so a Start with `mic_gain = 5` leaves the stored gain at 5,
outside `[0, 3]`. -/
theorem start_gain_unclamped_cex :
    (start_recording idleState (some ()) (some ()) (some ()) true false 5 1
        true true true true).mic_gain = 5 ∧
    ¬ ((5 : ℚ) ≤ GAIN_MAX) := by
  constructor
  · rfl
  · norm_num [GAIN_MAX]

/-- C3 amended: `SET_GAINS` always clamps both gains into
`[GAIN_MIN, GAIN_MAX] = [0, 3]`, but Start stores its gain arguments
unclamped, so the invariant survives a Start only when the controller's
previous gains and the Start arguments are themselves in range. -/
theorem gain_range_amended (s : CState) (mg lg : Option ℚ)
    (mic_device spk_device loopback_device : Option Unit)
    (im rd : Bool) (mgs lgs : ℚ) (le lb mk rk : Bool)
    (hs : gains_ok s)
    (hmg : GAIN_MIN ≤ mgs ∧ mgs ≤ GAIN_MAX)
    (hlg : GAIN_MIN ≤ lgs ∧ lgs ≤ GAIN_MAX) :
    gains_ok (set_gains s mg lg) ∧
    gains_ok (start_recording s mic_device spk_device loopback_device
        im rd mgs lgs le lb mk rk) := by
  constructor
  · refine ⟨le_max_left _ _, ?_, le_max_left _ _, ?_⟩ <;>
      exact max_le (by norm_num [GAIN_MIN, GAIN_MAX]) (min_le_left _ _)
  · rcases start_recording_gains s mic_device spk_device loopback_device
        im rd mgs lgs le lb mk rk with ⟨h, h'⟩ | ⟨h, h'⟩ <;>
      rw [gains_ok, h, h']
    · exact hs
    · exact ⟨hmg.1, hmg.2, hlg.1, hlg.2⟩

/-- Witness for `gain_range_amended` at concrete in-range inputs. -/
theorem gain_range_amended_witness :
    gains_ok (set_gains idleState (some 5) none) ∧
    gains_ok (start_recording idleState (some ()) (some ()) (some ())
        true false 2 1 true true true true) :=
  gain_range_amended idleState (some 5) none (some ()) (some ()) (some ())
    true false 2 1 true true true true
    (by constructor <;> norm_num [idleState, GAIN_MIN, GAIN_MAX, GAIN_DEFAULT])
    (by constructor <;> norm_num [GAIN_MIN, GAIN_MAX])
    (by constructor <;> norm_num [GAIN_MIN, GAIN_MAX])

/-- C4 counterexample: a `START` received while a session is active is NOT
rejected — from a recording state with valid arguments it spawns a fresh
loopback capture thread (spawn count 1 → 2) and proceeds. -/
theorem start_while_recording_cex :
    (start_recording recordingState (some ()) (some ()) (some ()) true false 1 1
        true true true true).loop_spawns = 2 ∧
    recordingState.loop_spawns = 1 := by
  constructor <;> rfl

/-- C4 amended: `start_recording` never consults `is_recording`: from ANY
state — recording or idle — with an explicit loopback device, successful
opens and (when the mic is included) a mic device, it spawns a new
loopback capture thread and sets the session recording.  Exclusivity is
enforced only by the UI disabling the Start button. -/
theorem start_no_session_guard (s : CState) (mic_device spk_device : Option Unit)
    (im : Bool) (mg lg : ℚ) (le rk : Bool)
    (hmic : im = true → mic_device.isSome) :
    (start_recording s mic_device spk_device (some ()) im false mg lg
        le true true rk).loop_spawns = s.loop_spawns + 1 ∧
    (start_recording s mic_device spk_device (some ()) im false mg lg
        le true true rk).is_recording = true := by
  unfold start_recording
  have hval1 : ¬(spk_device = none ∧ (some () : Option Unit) = none) := by simp
  have hval2 : ¬(im = true ∧ mic_device = none) := by
    rintro ⟨h1, h2⟩
    exact absurd (hmic h1) (by simp [h2])
  rw [if_neg hval1, if_neg hval2]
  simp

/-- Witness for `start_no_session_guard` at the mid-recording state. -/
theorem start_no_session_guard_witness :
    (start_recording recordingState (some ()) (some ()) (some ()) true false 1 1
        true true true true).loop_spawns = recordingState.loop_spawns + 1 ∧
    (start_recording recordingState (some ()) (some ()) (some ()) true false 1 1
        true true true true).is_recording = true :=
  start_no_session_guard recordingState (some ()) (some ()) true 1 1 true true
    (fun _ => rfl)

/-- Helper: a raw-mode Start either fails (leaving `is_recording` as it
was) or succeeds with the mic forced off and no mic reader spawned. -/
lemma start_raw_cases (s : CState)
    (mic_device spk_device loopback_device : Option Unit) (im : Bool)
    (mg lg : ℚ) (le lb mk rk : Bool) :
    ((start_recording s mic_device spk_device loopback_device im true mg lg
        le lb mk rk).is_recording = s.is_recording) ∨
    ((start_recording s mic_device spk_device loopback_device im true mg lg
        le lb mk rk).include_mic = false ∧
     (start_recording s mic_device spk_device loopback_device im true mg lg
        le lb mk rk).mic_spawns = s.mic_spawns ∧
     (start_recording s mic_device spk_device loopback_device im true mg lg
        le lb mk rk).is_recording = true) := by
  unfold start_recording
  simp only []
  repeat' split
  all_goals first
    | exact Or.inl rfl
    | ((refine Or.inr ⟨?_, ?_, rfl⟩ <;> simp); done)
    | (rename_i hcontra _
       simp at hcontra)

/-- C10: starting in raw-dump mode forces `include_mic` off regardless of
the flag — whenever such a Start actually begins recording (from idle),
the session has `include_mic = false` and no mic reader thread was
spawned — and each raw-mode loopback read writes the original int16 block
verbatim to the raw WAV file and queues nothing into the processing
pipeline (so no gain, resampling or limiting touches it). -/
theorem raw_dump_forces_mic_off (s : CState)
    (mic_device spk_device loopback_device : Option Unit)
    (im : Bool) (mg lg : ℚ) (le lb mk rk : Bool)
    (hidle : s.is_recording = false) :
    ((start_recording s mic_device spk_device loopback_device im true mg lg
        le lb mk rk).is_recording = true →
      (start_recording s mic_device spk_device loopback_device im true mg lg
          le lb mk rk).include_mic = false ∧
      (start_recording s mic_device spk_device loopback_device im true mg lg
          le lb mk rk).mic_spawns = s.mic_spawns) ∧
    (∀ g data ch e, (read_loopback_block true g data ch e).raw_written = data ∧
        (read_loopback_block true g data ch e).queued = none) := by
  constructor
  · intro hrec
    rcases start_raw_cases s mic_device spk_device loopback_device im mg lg
        le lb mk rk with h | ⟨h1, h2, -⟩
    · rw [h, hidle] at hrec
      exact absurd hrec (by simp)
    · exact ⟨h1, h2⟩
  · intro g data ch e
    exact ⟨rfl, rfl⟩

/-- Witness for `raw_dump_forces_mic_off`: a concrete raw-mode read. -/
theorem raw_dump_forces_mic_off_witness :
    (read_loopback_block true 1 [5, -5] 2 true).raw_written = [5, -5] ∧
    (read_loopback_block true 1 [5, -5] 2 true).queued = none :=
  (raw_dump_forces_mic_off idleState none (some ()) (some ()) true 1 1
      true true true true rfl).2 1 [5, -5] 2 true

end Hearbud
